import Mathlib

/-!
# Verification of the zssld-tools log-capture subsystem

Shallow embedding of the `logger` package (rotating file sink, standard-stream
sink, discard sink, fan-out dispatcher) and proofs of the specification claims.

File contents are modelled as `List Nat` (byte sequences); the filesystem
around one rotating file sink is modelled explicitly (active file content plus
a map from backup index to backup content).  Fallible I/O steps that the
claims exercise (the corrective re-stat in `Write`, backup deletion in
`ClearAllLogFile`) are driven by explicit oracle parameters; I/O steps no
claim exercises are taken to succeed.
-/

/-- Error values returned by logger operations, mirroring the distinct error
values constructed in the source (`errors.New`, `fmt.Errorf`, and I/O errors
propagated verbatim). -/
inductive LogErr where
  | badArguments   -- errors.New("BAD_ARGUMENTS")
  | failedErr      -- errors.New("FAILED")
  | noFile         -- errors.New("NO_FILE")
  | noLog          -- fmt.Errorf("No log")
  | offsetNegative -- fmt.Errorf("offset should not be less than 0")
  | lengthNegative -- fmt.Errorf("length should be not be less than 0")
  | ioFailure      -- an error propagated verbatim from the filesystem
deriving DecidableEq, Repr

/-- `f.ReadAt(b, offset)` with a buffer of size `length`, for the in-bounds
reads the logger performs: the `length.toNat` bytes starting at byte
`offset.toNat` of `file`. -/
def sliceAt (file : List Nat) (offset length : Int) : List Nat :=
  (file.drop offset.toNat).take length.toNat

/-- `FileLogger.ReadLog(offset, length)` (src/logger/log_file.go:102-158).
`file?` is the content of the file at the logger's path, `none` when opening
or statting it fails.  Argument validation happens before the open, exactly as
in the source; every branch clamps `length` so that the final `ReadAt` is
in bounds and succeeds. -/
def readLog (file? : Option (List Nat)) (offset length : Int) :
    Except LogErr (List Nat) :=
  if offset < 0 ∧ length ≠ 0 then .error .badArguments
  else if 0 ≤ offset ∧ length < 0 then .error .badArguments
  else
    match file? with
    | none => .error .failedErr
    | some file =>
      let fileLen : Int := file.length
      if offset < 0 then
        -- offset < 0 && length == 0
        let off1 := fileLen + offset
        let off2 := if off1 < 0 then 0 else off1
        .ok (sliceAt file off2 (fileLen - off2))
      else if length = 0 then
        -- offset >= 0 && length == 0
        if offset > fileLen then .ok []
        else .ok (sliceAt file offset (fileLen - offset))
      else
        -- offset >= 0 && length > 0
        if offset ≥ fileLen then .ok []
        else if offset + length > fileLen then .ok (sliceAt file offset (fileLen - offset))
        else .ok (sliceAt file offset length)

/-- `FileLogger.ReadTailLog(offset, length)` (src/logger/log_file.go:161-204).
Returns `(content, newOffset, reachedEnd)`; `none` for `file?` models an
open/stat failure, whose underlying error the source propagates verbatim. -/
def readTailLog (file? : Option (List Nat)) (offset length : Int) :
    Except LogErr (List Nat × Int × Bool) :=
  if offset < 0 then .error .offsetNegative
  else if length < 0 then .error .lengthNegative
  else
    match file? with
    | none => .error .ioFailure
    | some file =>
      let fileLen : Int := file.length
      if offset ≥ fileLen then .ok ([], fileLen, true)
      else
        let len := if offset + length > fileLen then fileLen - offset else length
        let b := sliceAt file offset len
        .ok (b, offset + b.length, false)

example : readLog (some [1, 2, 3]) (-2) 0 = .ok [2, 3] := by rfl
example : readLog (some [1, 2, 3]) (-7) 0 = .ok [1, 2, 3] := by rfl
example : readLog (some [1, 2, 3]) 1 0 = .ok [2, 3] := by rfl
example : readLog (some [1, 2, 3]) 5 0 = .ok [] := by rfl
example : readLog (some [1, 2, 3]) 1 5 = .ok [2, 3] := by rfl
example : readLog (some [1, 2, 3]) (-1) 2 = .error .badArguments := by rfl
example : readTailLog (some [1, 2, 3]) 5 2 = .ok ([], 3, true) := by rfl
example : readTailLog (some [1, 2, 3]) 1 7 = .ok ([2, 3], 3, false) := by rfl
example : readTailLog (some []) 5 1 = .ok ([], 0, true) := by rfl

/-! ## Rotating file sink state -/

/-- The filesystem state owned by one rotating file sink: the active file's
content, the backup files (`backups i` is the content of `<path>.<i>`, `none`
when no such file exists), the sink's running size counter `fileSize`, and the
trace of contents handed to the injected `LogEventEmitter`. -/
structure FLState where
  active : List Nat
  backups : Nat → Option (List Nat)
  fileSize : Int
  events : List (List Nat)

/-- A freshly created sink over an empty filesystem: `NewFileLogger` calls
`openFile(false)`, which creates an empty active file and leaves `fileSize`
at 0. -/
def initFL : FLState :=
  { active := [], backups := fun _ => none, fileSize := 0, events := [] }

/-- The descending rename loop of `FileLogger.backupFiles`
(src/logger/log_file.go:60-66): `shiftFrom bk m` processes indices
`m, m-1, ..., 1`, renaming backup `i` to backup `i+1` when it exists
(`os.Rename` overwrites the destination and removes the source). -/
def shiftFrom (bk : Nat → Option (List Nat)) : Nat → (Nat → Option (List Nat))
  | 0 => bk
  | i + 1 =>
    match bk (i + 1) with
    | some c =>
      shiftFrom (fun j => if j = i + 2 then some c else if j = i + 1 then none else bk j) i
    | none => shiftFrom bk i

/-- `FileLogger.backupFiles` (src/logger/log_file.go:59-69): shift backups
`retention-1 .. 1` up by one, then unconditionally rename the active file to
backup `1`. -/
def backupFiles (nbk : Nat) (active : List Nat) (bk : Nat → Option (List Nat)) :
    Nat → Option (List Nat) :=
  let bk1 := shiftFrom bk (nbk - 1)
  fun j => if j = 1 then some active else bk1 j

/-- `FileLogger.Write` (src/logger/log_file.go:207-232), with the underlying
`file.Write` succeeding (no claim exercises a failed append).  `statErr` is
the outcome of the corrective `os.Stat` re-query, consulted only when the
running counter reaches the threshold.  After rotation, `openFile(true)`
creates a fresh empty active file; the source does not reset `fileSize`
there, and neither does the model. -/
def fileWrite (maxSize : Int) (nbk : Nat) (statErr : Option LogErr)
    (s : FLState) (p : List Nat) : FLState × (Nat × Option LogErr) :=
  let n := p.length
  let active := s.active ++ p
  let events := s.events ++ [p]
  let fs1 := s.fileSize + (n : Int)
  if fs1 ≥ maxSize then
    match statErr with
    | some e =>
      ({ active := active, backups := s.backups, fileSize := fs1, events := events },
       (n, some e))
    | none =>
      let fs2 : Int := (active.length : Int)
      if fs2 ≥ maxSize then
        ({ active := [], backups := backupFiles nbk active s.backups, fileSize := fs2,
           events := events }, (n, none))
      else
        ({ active := active, backups := s.backups, fileSize := fs2, events := events },
         (n, none))
  else
    ({ active := active, backups := s.backups, fileSize := fs1, events := events },
     (n, none))

/-- The deletion loop of `FileLogger.ClearAllLogFile`
(src/logger/log_file.go:84-93): for `i` from the retention count down to 1,
if backup `i` exists remove it; a failed removal (`fails i = true`) aborts
immediately with the I/O error. -/
def clearBackups (fails : Nat → Bool) : Nat → FLState → FLState × Option LogErr
  | 0, s => (s, none)
  | i + 1, s =>
    if (s.backups (i + 1)).isSome then
      if fails (i + 1) then (s, some .ioFailure)
      else
        clearBackups fails i
          { s with backups := fun j => if j = i + 1 then none else s.backups j }
    else clearBackups fails i s

/-- `FileLogger.ClearAllLogFile` (src/logger/log_file.go:80-99): delete the
backups from index `nbk` down to 1, aborting on the first failed removal;
on success reopen the active file truncated. -/
def clearAll (nbk : Nat) (fails : Nat → Bool) (s : FLState) : FLState × Option LogErr :=
  match clearBackups fails nbk s with
  | (s1, some e) => (s1, some e)
  | (s1, none) => ({ s1 with active := [] }, none)

/-! Scenario A of the spec: threshold 10 bytes, retention 2, three writes. -/

/-- The bytes of the string `"0123456789"`. -/
def scenDigits : List Nat := [48, 49, 50, 51, 52, 53, 54, 55, 56, 57]

/-- The bytes of the string `"abc"`. -/
def scenAbc : List Nat := [97, 98, 99]

/-- The bytes of the string `"0123456789A"`. -/
def scenThird : List Nat := scenDigits ++ [65]

/-- State after writing `"0123456789"` to a fresh sink (threshold 10, retention 2). -/
def scenS1 : FLState := (fileWrite 10 2 none initFL scenDigits).1

/-- State after the further write of `"abc"`. -/
def scenS2 : FLState := (fileWrite 10 2 none scenS1 scenAbc).1

/-- State after the further write of `"0123456789A"`. -/
def scenS3 : FLState := (fileWrite 10 2 none scenS2 scenThird).1

example : scenS1.active = [] ∧ scenS1.backups 1 = some scenDigits := by
  exact ⟨rfl, rfl⟩
example : scenS2.active = scenAbc ∧ scenS2.backups 2 = none := by
  exact ⟨rfl, rfl⟩
example : scenS3.backups 2 = some scenDigits ∧ scenS3.backups 1 = some (scenAbc ++ scenThird)
    ∧ scenS3.active = [] := by
  exact ⟨rfl, rfl, rfl⟩
example : (clearAll 2 (fun _ => false) scenS3).1.backups 1 = none := by rfl
example : (fileWrite 1 0 none initFL [7]).1.backups 1 = some [7] := by rfl

/-! ## Fan-out dispatcher, standard-stream sink, discard sink, constructor -/

deriving instance DecidableEq for Except

/-- One constituent sink of the fan-out dispatcher, seen from the write path:
`received` is the sequence of chunks its `Write` has been handed (the sink's
observable effect), `resultFn` the `(bytes written, error)` pair its `Write`
returns for a given input. -/
structure Sink where
  received : List (List Nat)
  resultFn : List Nat → Nat × Option LogErr

/-- The loop body of `CompositeLogger.Write` (src/logger/log.go:139-151):
iterate over the sinks in order, writing to each; the named return values
`(n, err)` are assigned only at index 0 and otherwise keep the accumulator
(initially Go's zero values `(0, nil)`). -/
def compositeWriteLoop (p : List Nat) :
    List Sink → Nat → (Nat × Option LogErr) → List Sink × (Nat × Option LogErr)
  | [], _, acc => ([], acc)
  | sk :: rest, i, acc =>
    let r := sk.resultFn p
    let sk1 := { sk with received := sk.received ++ [p] }
    let acc1 := if i = 0 then r else acc
    let done := compositeWriteLoop p rest (i + 1) acc1
    (sk1 :: done.1, done.2)

/-- `CompositeLogger.Write` (src/logger/log.go:139-151). -/
def compositeWrite (sinks : List Sink) (p : List Nat) :
    List Sink × (Nat × Option LogErr) :=
  compositeWriteLoop p sinks 0 (0, none)

/-- The outcome of one `StdLogger.Write` call: what was forwarded to the
underlying stream, what was handed to the observer, and the returned pair. -/
structure StdWriteOut where
  forwarded : List (List Nat)
  events : List (List Nat)
  result : Nat × Option LogErr

/-- `StdLogger.Write` (src/logger/log_std.go:24-30).  `writerRes` is the
`(n, err)` result of the fixed underlying stream's own `Write`; the observer
is notified exactly when that write returned an error. -/
def stdWrite (writerRes : Nat × Option LogErr) (p : List Nat) : StdWriteOut :=
  { forwarded := [p]
    events := if writerRes.2.isSome then [p] else []
    result := writerRes }

/-- `NullLogger.ReadLog` (discard sink): always NO_FILE. -/
def nullReadLog (_offset _length : Int) : Except LogErr (List Nat) :=
  .error .noFile

/-- `NullLogger.ReadTailLog` (discard sink): always NO_FILE. -/
def nullReadTailLog (_offset _length : Int) : Except LogErr (List Nat × Int × Bool) :=
  .error .noFile

/-- `NullLogger.ClearCurLogFile` (discard sink): always the "No log" error. -/
def nullClearCur : Option LogErr := some .noLog

/-- `NullLogger.ClearAllLogFile` (discard sink): always NO_FILE. -/
def nullClearAll : Option LogErr := some .noFile

/-- The sink variants `createLogger` can build (src/logger/log.go:85-103).
Strings (destination tokens, file paths) are modelled as `List Char` so that
the model stays kernel-executable. -/
inductive SinkKind where
  | stdoutK
  | stderrK
  | nullK
  | sysK (programName : List Char)
  | fileK (path : List Char)
deriving DecidableEq, Repr

/-- The token `/dev/stdout`. -/
def devStdoutTok : List Char := ['/', 'd', 'e', 'v', '/', 's', 't', 'd', 'o', 'u', 't']

/-- The token `/dev/stderr`. -/
def devStderrTok : List Char := ['/', 'd', 'e', 'v', '/', 's', 't', 'd', 'e', 'r', 'r']

/-- The token `/dev/null`. -/
def devNullTok : List Char := ['/', 'd', 'e', 'v', '/', 'n', 'u', 'l', 'l']

/-- The token `syslog`. -/
def syslogTok : List Char := ['s', 'y', 's', 'l', 'o', 'g']

/-- `createLogger` (src/logger/log.go:85-103): sentinel destinations map to
the stream/discard/syslog variants, any other non-empty token to a file sink,
and the empty token to the discard sink. -/
def createLogger (programName : List Char) (logFile : List Char) : SinkKind :=
  if logFile = devStdoutTok then .stdoutK
  else if logFile = devStderrTok then .stderrK
  else if logFile = devNullTok then .nullK
  else if logFile = syslogTok then .sysK programName
  else if logFile.length > 0 then .fileK logFile
  else .nullK

/-- Go's `strings.Split(s, ",")`: the substrings between the commas, in
order.  On the empty string this yields one empty token, never the empty
list. -/
def splitOnComma : List Char → List Char → List (List Char)
  | [], acc => [acc.reverse]
  | c :: rest, acc =>
    if c = ',' then acc.reverse :: splitOnComma rest []
    else splitOnComma rest (c :: acc)

/-- Go's `strings.TrimSpace`: strip leading and trailing whitespace. -/
def trimSpace (s : List Char) : List Char :=
  ((s.dropWhile Char.isWhitespace).reverse.dropWhile Char.isWhitespace).reverse

/-- `splitLogFile` (src/logger/log.go:77-83): split the destination
specification on commas and trim whitespace around every token. -/
def splitLogFile (logFile : List Char) : List (List Char) :=
  (splitOnComma logFile []).map trimSpace

/-- `NewLogger` (src/logger/log.go:62-75), at the level of which sink variant
each token builds; the primary/secondary distinction affects only the
injected lock and observer, not the variant. -/
def newLoggerKinds (programName logFile : List Char) : List SinkKind :=
  (splitLogFile logFile).map (createLogger programName)

/-- `ReadLog` of each sink variant: the file variant is `FileLogger.ReadLog`
over the content `fs path` of its file; the stream, discard and syslog
variants all inherit `NullLogger.ReadLog` through struct embedding. -/
def kindReadLog (fs : List Char → Option (List Nat)) :
    SinkKind → Int → Int → Except LogErr (List Nat)
  | .fileK path, offset, length => readLog (fs path) offset length
  | _, offset, length => nullReadLog offset length

/-- `ReadTailLog` of each sink variant (file variant real, the rest inherit
`NullLogger.ReadTailLog`). -/
def kindReadTailLog (fs : List Char → Option (List Nat)) :
    SinkKind → Int → Int → Except LogErr (List Nat × Int × Bool)
  | .fileK path, offset, length => readTailLog (fs path) offset length
  | _, offset, length => nullReadTailLog offset length

/-- `ClearCurLogFile` of each sink variant; the file variant's result (that
of its `openFile(true)`) depends only on the filesystem and is abstracted as
`fileRes`. -/
def kindClearCur (fileRes : List Char → Option LogErr) : SinkKind → Option LogErr
  | .fileK path => fileRes path
  | _ => nullClearCur

/-- `ClearAllLogFile` of each sink variant; the file variant's result is
`FileLogger.ClearAllLogFile` on its own state, abstracted as `fileRes`. -/
def kindClearAll (fileRes : List Char → Option LogErr) : SinkKind → Option LogErr
  | .fileK path => fileRes path
  | _ => nullClearAll

/-- `CompositeLogger.ReadLog` (src/logger/log.go:179-181):
`cl.loggers[0].ReadLog(offset, length)`.  `none` models the index-out-of-range
fault this expression would raise on an empty sink sequence. -/
def compositeReadLog (fs : List Char → Option (List Nat)) (loggers : List SinkKind)
    (offset length : Int) : Option (Except LogErr (List Nat)) :=
  match loggers with
  | [] => none
  | k :: _ => some (kindReadLog fs k offset length)

/-- `CompositeLogger.ReadTailLog` (src/logger/log.go:184-186). -/
def compositeReadTailLog (fs : List Char → Option (List Nat)) (loggers : List SinkKind)
    (offset length : Int) : Option (Except LogErr (List Nat × Int × Bool)) :=
  match loggers with
  | [] => none
  | k :: _ => some (kindReadTailLog fs k offset length)

/-- `CompositeLogger.ClearCurLogFile` (src/logger/log.go:189-191). -/
def compositeClearCur (fileRes : List Char → Option LogErr) (loggers : List SinkKind) :
    Option (Option LogErr) :=
  match loggers with
  | [] => none
  | k :: _ => some (kindClearCur fileRes k)

/-- `CompositeLogger.ClearAllLogFile` (src/logger/log.go:194-196). -/
def compositeClearAll (fileRes : List Char → Option LogErr) (loggers : List SinkKind) :
    Option (Option LogErr) :=
  match loggers with
  | [] => none
  | k :: _ => some (kindClearAll fileRes k)

example : splitLogFile [] = [[]] := by rfl
example : newLoggerKinds ['p'] [] = [.nullK] := by rfl
example : newLoggerKinds ['p'] ['a', ',', ' ', '/', 'd', 'e', 'v', '/', 'n', 'u', 'l', 'l']
    = [.fileK ['a'], .nullK] := by rfl
example :
    compositeWrite [⟨[], fun q => (q.length, none)⟩, ⟨[], fun _ => (0, some .ioFailure)⟩] [5]
      = ([⟨[[5]], fun q => (q.length, none)⟩, ⟨[[5]], fun _ => (0, some .ioFailure)⟩], (1, none)) := by
  rfl

/-! ## Helper lemmas -/

/-- When the requested length covers the rest of the file, `sliceAt` is the
suffix starting at `a`. -/
lemma sliceAt_eq_drop (file : List Nat) (a b : Int)
    (hb : (file.length : Int) - a ≤ b) :
    sliceAt file a b = file.drop a.toNat := by
  unfold sliceAt
  apply List.take_of_length_le
  rw [List.length_drop]
  omega

/-- Any `drop`-then-`take` slice is surrounded by a prefix and a suffix of the
original list. -/
lemma slice_sandwich (file : List Nat) (a b : Nat) :
    file.take a ++ ((file.drop a).take b ++ (file.drop a).drop b) = file := by
  rw [List.take_append_drop, List.take_append_drop]

/-- `ReadLog` on the malformed sign combinations: BAD_ARGUMENTS. -/
lemma readLog_bad_eq (file? : Option (List Nat)) (offset length : Int)
    (h : (offset < 0 ∧ length ≠ 0) ∨ (0 ≤ offset ∧ length < 0)) :
    readLog file? offset length = .error .badArguments := by
  rcases h with ⟨h1, h2⟩ | ⟨h1, h2⟩ <;>
    · simp only [readLog]; split_ifs <;> first | rfl | omega

/-- `ReadLog` with a negative offset and zero length: the last `|offset|`
bytes, the read start clamped at byte 0. -/
lemma readLog_neg_eq (file : List Nat) (offset : Int) (hoff : offset < 0) :
    readLog (some file) offset 0
      = .ok (file.drop (file.length - min (-offset).toNat file.length)) := by
  simp only [readLog]
  split_ifs <;> try omega
  all_goals rw [sliceAt_eq_drop _ _ _ (by omega)]
  all_goals congr 2
  all_goals omega

/-- `ReadLog` with a nonnegative offset and zero length: offset to EOF. -/
lemma readLog_toEnd_eq (file : List Nat) (offset : Int) (hoff : 0 ≤ offset) :
    readLog (some file) offset 0 = .ok (file.drop offset.toNat) := by
  simp only [readLog]
  split_ifs <;> try omega
  · rw [List.drop_of_length_le (by omega)]
  · rw [sliceAt_eq_drop _ _ _ (by omega)]

/-- `ReadLog` with a nonnegative offset and positive length: empty at or past
EOF, otherwise exactly `min(length, fileLen - offset)` bytes from `offset`. -/
lemma readLog_pos_eq (file : List Nat) (offset length : Int) (hoff : 0 ≤ offset)
    (hlen : 0 < length) :
    readLog (some file) offset length
      = .ok (if (file.length : Int) ≤ offset then []
          else (file.drop offset.toNat).take
            (min length ((file.length : Int) - offset)).toNat) := by
  simp only [readLog]
  split_ifs <;> try omega
  · rfl
  · unfold sliceAt
    congr 2
    omega
  · unfold sliceAt
    congr 2
    omega

/-- C1: `FileLogger.ReadLog` fails with the InvalidArguments-kind error
exactly on the malformed sign combinations; on `offset<0, length=0` it
returns the last `|offset|` bytes clamped at byte 0 (the whole file when
`|offset| ≥ L`); on `offset≥0, length=0` it returns the bytes from `offset`
to end of file (empty beyond EOF, no error); on `offset≥0, length>0` it
returns empty at or beyond EOF and otherwise exactly
`min(length, L-offset)` bytes from `offset`; and every successful result is a
contiguous slice of the file, never extending past end-of-file. -/
theorem readLog_spec (file : List Nat) (offset length : Int) :
    (((offset < 0 ∧ length ≠ 0) ∨ (0 ≤ offset ∧ length < 0)) →
        readLog (some file) offset length = .error .badArguments)
    ∧ (offset < 0 → length = 0 →
        readLog (some file) offset length
          = .ok (file.drop (file.length - min (-offset).toNat file.length)))
    ∧ (offset < 0 → length = 0 → (file.length : Int) ≤ -offset →
        readLog (some file) offset length = .ok file)
    ∧ (0 ≤ offset → length = 0 →
        readLog (some file) offset length = .ok (file.drop offset.toNat))
    ∧ (0 ≤ offset → 0 < length → (file.length : Int) ≤ offset →
        readLog (some file) offset length = .ok [])
    ∧ (0 ≤ offset → 0 < length → offset < (file.length : Int) →
        readLog (some file) offset length
          = .ok ((file.drop offset.toNat).take
              (min length ((file.length : Int) - offset)).toNat))
    ∧ (∀ r, readLog (some file) offset length = .ok r →
        ∃ pre post, pre ++ (r ++ post) = file) := by
  refine ⟨readLog_bad_eq _ _ _, ?_, ?_, ?_, ?_, ?_, ?_⟩
  · intro hoff hlen
    subst hlen
    exact readLog_neg_eq file offset hoff
  · intro hoff hlen hL
    subst hlen
    rw [readLog_neg_eq file offset hoff]
    congr 1
    have h : file.length - min (-offset).toNat file.length = 0 := by omega
    rw [h, List.drop_zero]
  · intro hoff hlen
    subst hlen
    exact readLog_toEnd_eq file offset hoff
  · intro hoff hlen hL
    rw [readLog_pos_eq file offset length hoff hlen, if_pos hL]
  · intro hoff hlen hL
    rw [readLog_pos_eq file offset length hoff hlen, if_neg (by omega)]
  · intro r hr
    rcases lt_or_le offset 0 with hoff | hoff
    · rcases eq_or_ne length 0 with hlen | hlen
      · subst hlen
        rw [readLog_neg_eq file offset hoff] at hr
        obtain rfl : r = _ := (Except.ok.injEq _ _).mp hr.symm
        exact ⟨file.take (file.length - min (-offset).toNat file.length), [],
          by rw [List.append_nil, List.take_append_drop]⟩
      · rw [readLog_bad_eq _ _ _ (Or.inl ⟨hoff, hlen⟩)] at hr
        cases hr
    · rcases eq_or_ne length 0 with hlen | hlen
      · subst hlen
        rw [readLog_toEnd_eq file offset hoff] at hr
        obtain rfl : r = _ := (Except.ok.injEq _ _).mp hr.symm
        exact ⟨file.take offset.toNat, [], by rw [List.append_nil, List.take_append_drop]⟩
      · rcases lt_or_le 0 length with hpos | hneg
        · rw [readLog_pos_eq file offset length hoff hpos] at hr
          obtain rfl : r = _ := (Except.ok.injEq _ _).mp hr.symm
          split_ifs
          · exact ⟨[], file, by simp⟩
          · exact ⟨file.take offset.toNat, _, slice_sandwich file _ _⟩
        · rw [readLog_bad_eq _ _ _ (Or.inr ⟨hoff, by omega⟩)] at hr
          cases hr

/-- Witness for `readLog_spec`: concrete reads on the three-byte file
`[1, 2, 3]`. -/
theorem readLog_spec_witness :
    readLog (some [1, 2, 3]) (-2) 0 = .ok [2, 3]
      ∧ readLog (some [1, 2, 3]) (-7) 0 = .ok [1, 2, 3]
      ∧ readLog (some [1, 2, 3]) 1 0 = .ok [2, 3]
      ∧ readLog (some [1, 2, 3]) 5 7 = .ok []
      ∧ readLog (some [1, 2, 3]) 1 5 = .ok [2, 3]
      ∧ readLog (some [1, 2, 3]) (-1) 2 = .error .badArguments := by
  refine ⟨?_, ?_, ?_, ?_, ?_, ?_⟩
  · exact ((readLog_spec [1, 2, 3] (-2) 0).2.1 (by decide) rfl).trans (by decide)
  · exact ((readLog_spec [1, 2, 3] (-7) 0).2.2.1 (by decide) rfl (by decide)).trans rfl
  · exact ((readLog_spec [1, 2, 3] 1 0).2.2.2.1 (by decide) rfl).trans (by decide)
  · exact (readLog_spec [1, 2, 3] 5 7).2.2.2.2.1 (by decide) (by decide) (by decide)
  · exact ((readLog_spec [1, 2, 3] 1 5).2.2.2.2.2.1 (by decide) (by decide)
      (by decide)).trans (by decide)
  · exact (readLog_spec [1, 2, 3] (-1) 2).1 (Or.inl (by decide))

/-- C2 counterexample: on an empty file, `ReadTailLog(5, 1)` reports offset 0
(the file length), not the input offset 5, so the returned offset does not
equal the input offset whenever the input offset is strictly beyond EOF. -/
theorem readTailLog_claim_cex :
    readTailLog (some []) 5 1 = .ok ([], 0, true)
      ∧ readTailLog (some []) 5 1 ≠ .ok ([], 5, true) := by
  exact ⟨rfl, by decide⟩

/-- C2 (amended): `FileLogger.ReadTailLog` fails with the InvalidArguments
errors on a negative offset or length; for `offset ≥ L` it returns empty
content, returned offset equal to the file length `L` (equal to the input
offset only when `offset = L`), reached-end true and no error; otherwise it
returns `min(length, L-offset)` bytes from `offset`, the new offset
`offset + bytesRead`, and reached-end false. -/
theorem readTailLog_spec (file : List Nat) (offset length : Int) :
    (offset < 0 → readTailLog (some file) offset length = .error .offsetNegative)
    ∧ (0 ≤ offset → length < 0 →
        readTailLog (some file) offset length = .error .lengthNegative)
    ∧ (0 ≤ offset → 0 ≤ length → (file.length : Int) ≤ offset →
        readTailLog (some file) offset length = .ok ([], (file.length : Int), true))
    ∧ (0 ≤ offset → 0 ≤ length → offset < (file.length : Int) →
        readTailLog (some file) offset length
          = .ok ((file.drop offset.toNat).take
                (min length ((file.length : Int) - offset)).toNat,
              offset + min length ((file.length : Int) - offset), false)) := by
  refine ⟨?_, ?_, ?_, ?_⟩
  · intro hoff
    simp only [readTailLog]
    rw [if_pos hoff]
  · intro hoff hlen
    simp only [readTailLog]
    rw [if_neg (by omega), if_pos hlen]
  · intro hoff hlen hL
    simp only [readTailLog]
    split_ifs <;> first | rfl | omega
  · intro hoff hlen hL
    simp only [readTailLog, sliceAt]
    split_ifs <;> try omega
    all_goals simp only [Except.ok.injEq, Prod.mk.injEq, List.length_take, List.length_drop]
    all_goals refine ⟨?_, ?_, by trivial⟩
    · congr 1
      omega
    · omega
    · congr 1
      omega
    · omega

/-- Witness for `readTailLog_spec`: concrete tail reads on `[1, 2, 3]`. -/
theorem readTailLog_spec_witness :
    readTailLog (some [1, 2, 3]) 5 2 = .ok ([], 3, true)
      ∧ readTailLog (some [1, 2, 3]) 1 7 = .ok ([2, 3], 3, false)
      ∧ readTailLog (some [1, 2, 3]) (-1) 2 = .error .offsetNegative
      ∧ readTailLog (some [1, 2, 3]) 1 (-2) = .error .lengthNegative := by
  refine ⟨?_, ?_, ?_, ?_⟩
  · exact ((readTailLog_spec [1, 2, 3] 5 2).2.2.1 (by decide) (by decide)
      (by decide)).trans (by decide)
  · exact ((readTailLog_spec [1, 2, 3] 1 7).2.2.2 (by decide) (by decide)
      (by decide)).trans (by decide)
  · exact (readTailLog_spec [1, 2, 3] (-1) 2).1 (by decide)
  · exact (readTailLog_spec [1, 2, 3] 1 (-2)).2.1 (by decide) (by decide)

/-- C3: Scenario A for a rotating file sink with size threshold 10 and
retention 2, from a fresh empty sink: writing "0123456789" rotates it out to
backup .1 leaving the active file empty; a further "abc" is appended without
rotation; a further "0123456789A" rotates again, shifting .1 to .2 and
leaving "abc0123456789A" in .1 and an empty active file. -/
theorem scenarioA_rotation :
    scenS1.active = [] ∧ scenS1.backups 1 = some scenDigits ∧ scenS1.backups 2 = none
      ∧ scenS2.active = scenAbc ∧ scenS2.backups 1 = some scenDigits
      ∧ scenS2.backups 2 = none
      ∧ scenS3.backups 2 = some scenDigits
      ∧ scenS3.backups 1 = some (scenAbc ++ scenThird)
      ∧ scenS3.active = [] :=
  ⟨rfl, rfl, rfl, rfl, rfl, rfl, rfl, rfl, rfl⟩

/-- C5: round-trip — writing fewer bytes than the rotation threshold to a
fresh sink and then calling `ReadLog(0, 0)` returns exactly those bytes. -/
theorem write_readLog_roundTrip (maxSize : Int) (N : Nat) (statErr : Option LogErr)
    (p : List Nat) (h : (p.length : Int) < maxSize) :
    readLog (some ((fileWrite maxSize N statErr initFL p).1.active)) 0 0 = .ok p := by
  have hact : (fileWrite maxSize N statErr initFL p).1.active = p := by
    simp only [fileWrite, initFL]
    rw [if_neg (by omega)]
    simp
  rw [hact, readLog_toEnd_eq p 0 le_rfl]
  simp

/-- Witness for `write_readLog_roundTrip`: two bytes, threshold 10. -/
theorem write_readLog_roundTrip_witness :
    readLog (some ((fileWrite 10 2 none initFL [1, 2]).1.active)) 0 0 = .ok [1, 2] :=
  write_readLog_roundTrip 10 2 none [1, 2] (by decide)

/-- C8: the standard-stream sink's `Write` forwards the bytes to the fixed
underlying stream, returns the stream's own (bytes written, error) result,
and notifies the observer with the content if and only if the forwarding
write returned an error — never on success. -/
theorem stdWrite_spec (writerRes : Nat × Option LogErr) (p : List Nat) :
    (stdWrite writerRes p).forwarded = [p]
    ∧ (stdWrite writerRes p).result = writerRes
    ∧ ((stdWrite writerRes p).events = [p] ↔ (writerRes.2).isSome = true)
    ∧ ((stdWrite writerRes p).events = [] ↔ writerRes.2 = none) := by
  obtain ⟨n, err⟩ := writerRes
  cases err <;> simp [stdWrite]

/-- C10: when the appended bytes push the running counter to the threshold
and the corrective re-stat fails, `Write` returns the full byte count
together with the stat error — after the observer was notified and the
counter incremented, with the bytes persisted and no rotation performed. -/
theorem write_statFail_spec (maxSize : Int) (N : Nat) (e : LogErr) (s : FLState)
    (p : List Nat) (h : maxSize ≤ s.fileSize + (p.length : Int)) :
    (fileWrite maxSize N (some e) s p).2 = (p.length, some e)
    ∧ (fileWrite maxSize N (some e) s p).1.active = s.active ++ p
    ∧ (fileWrite maxSize N (some e) s p).1.events = s.events ++ [p]
    ∧ (fileWrite maxSize N (some e) s p).1.fileSize = s.fileSize + (p.length : Int)
    ∧ ∀ j, (fileWrite maxSize N (some e) s p).1.backups j = s.backups j := by
  simp only [fileWrite]
  rw [if_pos (by omega)]
  exact ⟨rfl, rfl, rfl, rfl, fun j => rfl⟩

/-- Witness for `write_statFail_spec`: one byte against threshold 1 with a
failing re-stat. -/
theorem write_statFail_spec_witness :
    (fileWrite 1 0 (some .ioFailure) initFL [3]).2 = (1, some .ioFailure)
    ∧ (fileWrite 1 0 (some .ioFailure) initFL [3]).1.active = [3]
    ∧ (fileWrite 1 0 (some .ioFailure) initFL [3]).1.events = [[3]] := by
  have h := write_statFail_spec 1 0 .ioFailure initFL [3] (by decide)
  exact ⟨h.1, h.2.1, h.2.2.1⟩

/-- Writing through the dispatcher appends the chunk to every sink after the
first; the accumulated return value is untouched for indices ≥ 1. -/
lemma compositeWriteLoop_tail (p : List Nat) (sinks : List Sink) (i : Nat)
    (acc : Nat × Option LogErr) (hi : i ≠ 0) :
    compositeWriteLoop p sinks i acc
      = (sinks.map (fun sk => { sk with received := sk.received ++ [p] }), acc) := by
  induction sinks generalizing i with
  | nil => rfl
  | cons sk rest ih =>
    simp only [compositeWriteLoop, List.map]
    rw [if_neg hi, ih (i + 1) (by omega)]

/-- C6: dispatcher write over a non-empty sink sequence hands the chunk to
every constituent sink in order and returns exactly the (bytes, error) pair
of the primary sink at index 0; results of the other sinks never reach the
caller. -/
theorem compositeWrite_primary (sinks : List Sink) (p : List Nat) (h : sinks ≠ []) :
    (compositeWrite sinks p).2 = (sinks.head h).resultFn p
    ∧ (compositeWrite sinks p).1
        = sinks.map (fun sk => { sk with received := sk.received ++ [p] }) := by
  cases sinks with
  | nil => exact absurd rfl h
  | cons sk rest =>
    simp only [compositeWrite, compositeWriteLoop, List.head, List.map, if_true]
    rw [compositeWriteLoop_tail p rest 1 _ (by omega)]
    exact ⟨rfl, rfl⟩

/-- A primary sink whose write succeeds, reporting the full length. -/
def wPrimary : Sink := { received := [], resultFn := fun q => (q.length, none) }

/-- A secondary sink whose write always fails. -/
def wSecondary : Sink := { received := [], resultFn := fun _ => (0, some .ioFailure) }

/-- Witness for `compositeWrite_primary`: the dispatcher over a succeeding
primary and a failing secondary returns the primary's success result. -/
theorem compositeWrite_primary_witness :
    (compositeWrite [wPrimary, wSecondary] [5, 6]).2 = (2, none) := by
  have h := (compositeWrite_primary [wPrimary, wSecondary] [5, 6] (by simp)).1
  rw [h]
  rfl

/-- Characterization of the backup shift loop for `m ≥ 1`: slot 1 is cleared,
slot `j` (for `2 ≤ j ≤ m`) receives slot `j-1`'s content, slot `m+1` is
overwritten from slot `m` when the latter exists (discarding its old content)
and otherwise keeps its old content, and all higher slots are untouched. -/
lemma shiftFrom_eq (bk : Nat → Option (List Nat)) (m : Nat) (hm : 1 ≤ m) (j : Nat) :
    shiftFrom bk m j =
      if j = 1 then none
      else if 2 ≤ j ∧ j ≤ m then bk (j - 1)
      else if j = m + 1 then (if (bk m).isSome then bk m else bk (m + 1))
      else bk j := by
  induction m generalizing bk with
  | zero => omega
  | succ m ih =>
    rcases Nat.eq_zero_or_pos m with hm0 | hm1
    · subst hm0
      cases hbk : bk 1 with
      | some c =>
        simp only [shiftFrom, hbk]
        split_ifs <;> first | rfl | omega | simp_all
      | none =>
        simp only [shiftFrom, hbk]
        split_ifs <;> first | rfl | omega | simp_all
    · cases hbk : bk (m + 1) with
      | some c =>
        simp only [shiftFrom, hbk]
        simp only [ih _ hm1]
        split_ifs <;> first | rfl | omega | simp_all
      | none =>
        simp only [shiftFrom, hbk]
        simp only [ih _ hm1]
        split_ifs <;> first | rfl | omega | simp_all

/-- Characterization of a full rotation step: slot 1 receives the rotated-out
active file, middle slots shift up by one, the top slot `N` is refilled from
slot `N-1` when that exists, and slots above `N` are untouched. -/
lemma backupFiles_eq (N : Nat) (hN : 1 ≤ N) (active : List Nat)
    (bk : Nat → Option (List Nat)) (j : Nat) :
    backupFiles N active bk j =
      if j = 1 then some active
      else if 2 ≤ j ∧ j ≤ N - 1 then bk (j - 1)
      else if j = N ∧ 2 ≤ N then (if (bk (N - 1)).isSome then bk (N - 1) else bk N)
      else bk j := by
  rcases Nat.lt_or_ge N 2 with hN2 | hN2
  · have h1 : N = 1 := by omega
    subst h1
    simp only [backupFiles, shiftFrom]
    split_ifs <;> first | rfl | omega
  · simp only [backupFiles]
    rw [shiftFrom_eq bk (N - 1) (by omega) j, show N - 1 + 1 = N from by omega]
    split_ifs <;> first | rfl | omega

/-- In every branch of `Write`, the backups are either untouched or the
result of one `backupFiles` rotation of the appended active file. -/
lemma fileWrite_backups_cases (maxSize : Int) (N : Nat) (statErr : Option LogErr)
    (s : FLState) (p : List Nat) :
    (fileWrite maxSize N statErr s p).1.backups = s.backups
    ∨ (fileWrite maxSize N statErr s p).1.backups
        = backupFiles N (s.active ++ p) s.backups := by
  cases statErr with
  | some e =>
    left
    simp only [fileWrite]
    split_ifs <;> rfl
  | none =>
    simp only [fileWrite]
    split_ifs
    · right; rfl
    · left; rfl
    · left; rfl

/-- When the counter and the re-statted size both reach the threshold,
`Write` rotates: the backups are those produced by `backupFiles`. -/
lemma fileWrite_rotate (maxSize : Int) (N : Nat) (s : FLState) (p : List Nat)
    (h1 : maxSize ≤ s.fileSize + (p.length : Int))
    (h2 : maxSize ≤ ((s.active ++ p).length : Int)) :
    (fileWrite maxSize N none s p).1.backups
      = backupFiles N (s.active ++ p) s.backups := by
  simp only [fileWrite]
  rw [if_pos (by omega), if_pos (by omega)]

/-- C4 counterexample: with retention 0 and threshold 1, a write-triggered
rotation still renames the active file to backup index 1 (the final rename
in `backupFiles` is unconditional), so a backup file exists although the
claim allows backup indices only in the empty range 1..0 and asserts that
rotation with retention 0 leaves no backup file. -/
theorem backup_retention_claim_cex :
    (fileWrite 1 0 none initFL [7]).1.backups 1 = some [7] ∧ ¬(1 : Nat) ≤ 0 :=
  ⟨rfl, by decide⟩

/-- C4 (amended): for retention `N ≥ 1`, starting from backups confined to
slots 1..N, every backup still carries an index in 1..N after any write (the
numbering never exceeds N); when the write triggers a rotation, slot 1 holds
the most recently rotated-out content, and if all N slots were occupied then
the old slot-N content is discarded, slot `j` receiving slot `j-1`'s content.
With retention 0 a rotation instead leaves the rotated-out file as backup
index 1 (see the counterexample). -/
theorem backup_retention_amended (maxSize : Int) (N : Nat) (statErr : Option LogErr)
    (s : FLState) (p : List Nat) (hN : 1 ≤ N)
    (hconf : ∀ k, (s.backups k).isSome → 1 ≤ k ∧ k ≤ N) :
    (∀ k, ((fileWrite maxSize N statErr s p).1.backups k).isSome → 1 ≤ k ∧ k ≤ N)
    ∧ (statErr = none → maxSize ≤ s.fileSize + (p.length : Int) →
        maxSize ≤ ((s.active ++ p).length : Int) →
        (fileWrite maxSize N statErr s p).1.backups 1 = some (s.active ++ p)
        ∧ ((∀ i, 1 ≤ i → i ≤ N → (s.backups i).isSome) →
            ∀ j, 2 ≤ j → j ≤ N →
              (fileWrite maxSize N statErr s p).1.backups j = s.backups (j - 1))) := by
  constructor
  · intro k hk
    rcases fileWrite_backups_cases maxSize N statErr s p with hcase | hcase
    · rw [hcase] at hk
      exact hconf k hk
    · rw [hcase, backupFiles_eq N hN] at hk
      split_ifs at hk with c1 c2 c3 c4 <;> first | omega | (exact hconf _ hk)
  · intro hstat h1 h2
    subst hstat
    constructor
    · rw [fileWrite_rotate maxSize N s p h1 h2, backupFiles_eq N hN]
      simp
    · intro hfull j hj2 hjN
      rw [fileWrite_rotate maxSize N s p h1 h2, backupFiles_eq N hN]
      rcases Nat.lt_or_ge j N with hjlt | hjge
      · rw [if_neg (by omega), if_pos (show 2 ≤ j ∧ j ≤ N - 1 from by omega)]
      · have hje : j = N := by omega
        subst hje
        rw [if_neg (by omega), if_neg (by omega),
          if_pos (show j = j ∧ 2 ≤ j from ⟨rfl, hj2⟩),
          if_pos (hfull (j - 1) (by omega) (by omega))]

/-- A sink state with both retention-2 slots occupied, for the C4 witness. -/
def wS : FLState :=
  { active := [5], backups := fun j => if j = 1 ∨ j = 2 then some [j] else none,
    fileSize := 1, events := [] }

/-- Witness for `backup_retention_amended`: threshold 1, retention 2, both
slots full; after the rotating write, slot 1 holds the rotated-out bytes and
slot 2 holds old slot 1. -/
theorem backup_retention_amended_witness :
    (fileWrite 1 2 none wS [9]).1.backups 1 = some [5, 9]
    ∧ (fileWrite 1 2 none wS [9]).1.backups 2 = wS.backups 1 := by
  have hconf : ∀ k, (wS.backups k).isSome → 1 ≤ k ∧ k ≤ 2 := by
    intro k hk
    by_cases h : k = 1 ∨ k = 2
    · omega
    · simp only [wS] at hk
      rw [if_neg h] at hk
      simp at hk
  have h := (backup_retention_amended 1 2 none wS [9] (by decide) hconf).2 rfl
    (by decide) (by decide)
  refine ⟨h.1, h.2 ?_ 2 (by decide) (by decide)⟩
  intro i hi1 hi2
  have hor : i = 1 ∨ i = 2 := by omega
  simp only [wS]
  rw [if_pos hor]
  rfl

/-- The deletion loop when no existing backup's removal fails: it returns no
error, empties every slot 1..n, and touches nothing else. -/
lemma clearBackups_ok (fails : Nat → Bool) (n : Nat) (s : FLState)
    (h : ∀ i, 1 ≤ i → i ≤ n → (s.backups i).isSome → fails i = false) :
    (clearBackups fails n s).2 = none
    ∧ (∀ j, 1 ≤ j → j ≤ n → (clearBackups fails n s).1.backups j = none)
    ∧ (∀ j, ¬(1 ≤ j ∧ j ≤ n) → (clearBackups fails n s).1.backups j = s.backups j)
    ∧ (clearBackups fails n s).1.active = s.active := by
  induction n generalizing s with
  | zero =>
    exact ⟨rfl, fun j hj1 hj2 => by omega, fun j _ => rfl, rfl⟩
  | succ n ih =>
    by_cases hs : (s.backups (n + 1)).isSome
    · have hf : fails (n + 1) = false := h (n + 1) (by omega) (by omega) hs
      simp only [clearBackups]
      rw [if_pos hs, if_neg (by simp [hf])]
      set s1 : FLState :=
        { s with backups := fun j => if j = n + 1 then none else s.backups j } with hs1
      have h1 : ∀ i, 1 ≤ i → i ≤ n → (s1.backups i).isSome → fails i = false := by
        intro i hi1 hi2 hsome
        apply h i hi1 (by omega)
        rw [hs1] at hsome
        simpa [show i ≠ n + 1 from by omega] using hsome
      obtain ⟨e1, e2, e3, e4⟩ := ih s1 h1
      refine ⟨e1, ?_, ?_, e4⟩
      · intro j hj1 hj2
        rcases Nat.lt_or_ge j (n + 1) with hlt | hge
        · exact e2 j hj1 (by omega)
        · have hje : j = n + 1 := by omega
          subst hje
          rw [e3 (n + 1) (by omega), hs1]
          simp
      · intro j hj
        rw [e3 j (by omega), hs1]
        simp only []
        rw [if_neg (by omega)]
    · simp only [clearBackups]
      rw [if_neg hs]
      have h1 : ∀ i, 1 ≤ i → i ≤ n → (s.backups i).isSome → fails i = false :=
        fun i hi1 hi2 => h i hi1 (by omega)
      obtain ⟨e1, e2, e3, e4⟩ := ih s h1
      refine ⟨e1, ?_, ?_, e4⟩
      · intro j hj1 hj2
        rcases Nat.lt_or_ge j (n + 1) with hlt | hge
        · exact e2 j hj1 (by omega)
        · have hje : j = n + 1 := by omega
          subst hje
          rw [e3 (n + 1) (by omega)]
          exact Option.not_isSome_iff_eq_none.mp (by simp [hs])
      · intro j hj
        exact e3 j (by omega)

/-- The deletion loop when the removal of the occupied slot `i` fails and no
occupied slot above `i` fails: it aborts with the I/O error, having emptied
exactly the occupied slots above `i` and touched nothing else. -/
lemma clearBackups_fail (fails : Nat → Bool) (n : Nat) (s : FLState) (i : Nat)
    (hi1 : 1 ≤ i) (hin : i ≤ n) (hsome : (s.backups i).isSome = true)
    (hf : fails i = true)
    (habove : ∀ j, i < j → j ≤ n → (s.backups j).isSome → fails j = false) :
    (clearBackups fails n s).2 = some .ioFailure
    ∧ (∀ j, j ≤ i → (clearBackups fails n s).1.backups j = s.backups j)
    ∧ (∀ j, i < j → j ≤ n → (clearBackups fails n s).1.backups j = none)
    ∧ (∀ j, n < j → (clearBackups fails n s).1.backups j = s.backups j)
    ∧ (clearBackups fails n s).1.active = s.active := by
  induction n generalizing s with
  | zero => omega
  | succ n ih =>
    rcases Nat.lt_or_ge i (n + 1) with hlt | hge
    · by_cases hs : (s.backups (n + 1)).isSome
      · have hfn : fails (n + 1) = false := habove (n + 1) (by omega) (by omega) hs
        simp only [clearBackups]
        rw [if_pos hs, if_neg (by simp [hfn])]
        set s1 : FLState :=
          { s with backups := fun j => if j = n + 1 then none else s.backups j } with hs1
        have hsome1 : (s1.backups i).isSome = true := by
          rw [hs1]
          simpa [show i ≠ n + 1 from by omega] using hsome
        have habove1 : ∀ j, i < j → j ≤ n → (s1.backups j).isSome → fails j = false := by
          intro j hj1 hj2 hsj
          apply habove j hj1 (by omega)
          rw [hs1] at hsj
          simpa [show j ≠ n + 1 from by omega] using hsj
        obtain ⟨e1, e2, e3, e4, e5⟩ := ih s1 (by omega) hsome1 habove1
        refine ⟨e1, ?_, ?_, ?_, e5⟩
        · intro j hj
          rw [e2 j hj, hs1]
          simp only []
          rw [if_neg (by omega)]
        · intro j hj1 hj2
          rcases Nat.lt_or_ge j (n + 1) with hjlt | hjge
          · exact e3 j hj1 (by omega)
          · have hje : j = n + 1 := by omega
            subst hje
            rw [e4 (n + 1) (by omega), hs1]
            simp
        · intro j hj
          rw [e4 j (by omega), hs1]
          simp only []
          rw [if_neg (by omega)]
      · simp only [clearBackups]
        rw [if_neg hs]
        have habove1 : ∀ j, i < j → j ≤ n → (s.backups j).isSome → fails j = false :=
          fun j hj1 hj2 => habove j hj1 (by omega)
        obtain ⟨e1, e2, e3, e4, e5⟩ := ih s (by omega) hsome habove1
        refine ⟨e1, e2, ?_, ?_, e5⟩
        · intro j hj1 hj2
          rcases Nat.lt_or_ge j (n + 1) with hjlt | hjge
          · exact e3 j hj1 (by omega)
          · have hje : j = n + 1 := by omega
            subst hje
            rw [e4 (n + 1) (by omega)]
            exact Option.not_isSome_iff_eq_none.mp (by simp [hs])
        · intro j hj
          exact e4 j (by omega)
    · have hie : i = n + 1 := by omega
      subst hie
      simp only [clearBackups]
      rw [if_pos hsome, if_pos hf]
      exact ⟨rfl, fun j _ => rfl, fun j h1 h2 => by omega, fun j _ => rfl, rfl⟩

/-- C7: `ClearAllLogFile` deletes every existing backup with index 1..N
(ignoring missing ones, in particular succeeding when none exist) and then
truncates the active file, returning no error; when deleting the occupied
backup `i` fails (no occupied higher slot failing before it in the
descending loop), the operation aborts with that I/O error, the higher
backups already deleted stay deleted, the backups at and below `i` are
untouched, and the active file is left untruncated. -/
theorem clearAll_spec (N : Nat) (fails : Nat → Bool) (s : FLState) :
    ((∀ i, 1 ≤ i → i ≤ N → (s.backups i).isSome → fails i = false) →
        (clearAll N fails s).2 = none
        ∧ (clearAll N fails s).1.active = []
        ∧ (∀ j, 1 ≤ j → j ≤ N → (clearAll N fails s).1.backups j = none)
        ∧ (∀ j, N < j → (clearAll N fails s).1.backups j = s.backups j))
    ∧ (∀ i, 1 ≤ i → i ≤ N → (s.backups i).isSome → fails i = true →
        (∀ j, i < j → j ≤ N → (s.backups j).isSome → fails j = false) →
        (clearAll N fails s).2 = some .ioFailure
        ∧ (clearAll N fails s).1.active = s.active
        ∧ (∀ j, j ≤ i → (clearAll N fails s).1.backups j = s.backups j)
        ∧ (∀ j, i < j → j ≤ N → (clearAll N fails s).1.backups j = none)
        ∧ (∀ j, N < j → (clearAll N fails s).1.backups j = s.backups j)) := by
  constructor
  · intro h
    obtain ⟨e1, e2, e3, e4⟩ := clearBackups_ok fails N s h
    rcases hcb : clearBackups fails N s with ⟨s1, err⟩
    rw [hcb] at e1 e2 e3 e4
    have herr : err = none := e1
    subst herr
    simp only [clearAll, hcb]
    refine ⟨by trivial, by trivial, ?_, ?_⟩
    · intro j hj1 hj2
      exact e2 j hj1 hj2
    · intro j hj
      exact e3 j (by omega)
  · intro i hi1 hi2 hsome hf habove
    obtain ⟨e1, e2, e3, e4, e5⟩ := clearBackups_fail fails N s i hi1 hi2 hsome hf habove
    rcases hcb : clearBackups fails N s with ⟨s1, err⟩
    rw [hcb] at e1 e2 e3 e4 e5
    have herr : err = some .ioFailure := e1
    subst herr
    simp only [clearAll, hcb]
    exact ⟨by trivial, e5, e2, e3, e4⟩

/-- A sink state with all three retention-3 slots occupied, for the C7
witness. -/
def wCS : FLState :=
  { active := [7], backups := fun j => if j = 1 ∨ j = 2 ∨ j = 3 then some [j] else none,
    fileSize := 7, events := [] }

/-- Witness for `clearAll_spec`: with retention 3 and all slots present, a
fault-free clear leaves no backups and an empty active file; a clear whose
removal of backup 2 fails returns the I/O error, keeps backups 1 and 2 and
the active file, and leaves the already-removed backup 3 deleted. -/
theorem clearAll_spec_witness :
    (clearAll 3 (fun _ => false) wCS).2 = none
    ∧ (clearAll 3 (fun _ => false) wCS).1.active = []
    ∧ (clearAll 3 (fun _ => false) wCS).1.backups 2 = none
    ∧ (clearAll 3 (fun j => decide (j = 2)) wCS).2 = some .ioFailure
    ∧ (clearAll 3 (fun j => decide (j = 2)) wCS).1.active = [7]
    ∧ (clearAll 3 (fun j => decide (j = 2)) wCS).1.backups 3 = none
    ∧ (clearAll 3 (fun j => decide (j = 2)) wCS).1.backups 2 = some [2] := by
  have hok := (clearAll_spec 3 (fun _ => false) wCS).1 (fun i h1 h2 hs => rfl)
  have hfail := (clearAll_spec 3 (fun j => decide (j = 2)) wCS).2 2 (by decide)
    (by decide) (by decide) (by decide)
    (fun j h1 h2 hs => by
      have hj3 : j = 3 := by omega
      subst hj3
      rfl)
  refine ⟨hok.1, hok.2.1, hok.2.2.1 2 (by decide) (by decide), hfail.1, hfail.2.1,
    hfail.2.2.2.1 3 (by decide) (by decide), (hfail.2.2.1 2 (by decide)).trans (by decide)⟩

/-- Splitting on commas always yields at least one token, even on the empty
string. -/
lemma splitOnComma_ne_nil (s acc : List Char) : splitOnComma s acc ≠ [] := by
  induction s generalizing acc with
  | nil => simp [splitOnComma]
  | cons c rest ih =>
    simp only [splitOnComma]
    split_ifs
    · simp
    · exact ih _

/-- C9: for every destination specification (the empty string included),
`NewLogger` builds a non-empty sink sequence, so the dispatcher's
`ReadLog`, `ReadTailLog`, `ClearCurLogFile` and `ClearAllLogFile`, which
index sink 0, never fault; on the empty specification the sole sink is the
discard sink, and these operations return its NO_FILE / "No log" errors
rather than crashing. -/
theorem newLogger_primary_safe (programName logFile : List Char)
    (fs : List Char → Option (List Nat)) (fcc fca : List Char → Option LogErr)
    (offset length : Int) :
    newLoggerKinds programName logFile ≠ []
    ∧ (compositeReadLog fs (newLoggerKinds programName logFile) offset length).isSome
        = true
    ∧ (compositeReadTailLog fs (newLoggerKinds programName logFile) offset
        length).isSome = true
    ∧ (compositeClearCur fcc (newLoggerKinds programName logFile)).isSome = true
    ∧ (compositeClearAll fca (newLoggerKinds programName logFile)).isSome = true
    ∧ (logFile = [] →
        compositeReadLog fs (newLoggerKinds programName logFile) offset length
            = some (.error .noFile)
        ∧ compositeReadTailLog fs (newLoggerKinds programName logFile) offset length
            = some (.error .noFile)
        ∧ compositeClearCur fcc (newLoggerKinds programName logFile) = some (some .noLog)
        ∧ compositeClearAll fca (newLoggerKinds programName logFile)
            = some (some .noFile)) := by
  have hne : newLoggerKinds programName logFile ≠ [] := by
    simp only [newLoggerKinds, splitLogFile]
    intro hcontra
    exact splitOnComma_ne_nil logFile []
      (List.map_eq_nil_iff.mp (List.map_eq_nil_iff.mp hcontra))
  obtain ⟨k, rest, hkr⟩ := List.exists_cons_of_ne_nil hne
  refine ⟨hne, ?_, ?_, ?_, ?_, ?_⟩
  · rw [hkr]; rfl
  · rw [hkr]; rfl
  · rw [hkr]; rfl
  · rw [hkr]; rfl
  · intro hempty
    subst hempty
    exact ⟨rfl, rfl, rfl, rfl⟩

/-- Witness for `newLogger_primary_safe`: the empty destination
specification yields the discard sink's errors, not a crash. -/
theorem newLogger_primary_safe_witness :
    compositeReadLog (fun _ => none) (newLoggerKinds ['p'] []) 0 0
        = some (.error .noFile)
    ∧ compositeClearCur (fun _ => none) (newLoggerKinds ['p'] []) = some (some .noLog) := by
  have h := (newLogger_primary_safe ['p'] [] (fun _ => none) (fun _ => none)
    (fun _ => none) 0 0).2.2.2.2.2 rfl
  exact ⟨h.1, h.2.2.1⟩
